import Mathlib

/-!
Shallow embedding of `tower-sessions-surrealdb-store` (src/src/lib.rs):
a SurrealDB-backed session store implementing the `tower-sessions-core`
`SessionStore` and `ExpiredDeletion` traits.

Modelling choices (each noted at the definition it concerns):
* A time instant (`time::OffsetDateTime`, nanosecond precision) is an `Int`
  counting nanoseconds since the unix epoch.
* The backend (one SurrealDB table) is an association list from session id to
  the stored row (`SessionRecord`); each store method becomes a pure function
  from the table state (plus the current time, where the underlying SurrealDB
  query calls `time::now()`) to a result and, for writes, a new table state.
  Backend transport failures are outside the model: every modelled query
  reaches the table.
* `rmp_serde` (MessagePack) is an external dependency whose byte-level detail
  the claims do not touch; it is modelled as an injective codec on an abstract
  byte-string type `Blob`, failing to encode exactly the values outside
  MessagePack's representable domain and failing to decode exactly the
  malformed byte strings.
-/

/-- A time instant: nanoseconds since the unix epoch
(models `time::OffsetDateTime`, which has nanosecond precision). -/
abbrev Instant := Int

/-- Whole seconds since the unix epoch of an instant.  Both
`OffsetDateTime::unix_timestamp()` (used by `SessionRecord::from_session`) and
SurrealDB's `time::unix(time::now())` (used in the `load` and `delete_expired`
queries) truncate to whole seconds, rounding toward negative infinity; on
`Int`, `/` is Euclidean division, which is exactly floor for the positive
divisor `10^9`. -/
def toUnixSeconds (t : Instant) : Int := t / 1000000000

/-- A session data value (models `serde_json::Value` as stored in the
session's data map; numbers are modelled by `Int`). -/
inductive JsonValue where
  | null : JsonValue
  | bool (b : Bool) : JsonValue
  | int (n : Int) : JsonValue
  | str (s : String) : JsonValue
  | arr (elems : List JsonValue) : JsonValue
  | obj (fields : List (String × JsonValue)) : JsonValue

mutual

/-- Whether a data value is inside MessagePack's representable domain:
`rmp_serde` refuses strings, arrays and maps with `2^32` or more
elements (the MessagePack length headers are 32-bit). -/
def JsonValue.serializable : JsonValue → Bool
  | .null => true
  | .bool _ => true
  | .int _ => true
  | .str s => decide (s.length < 4294967296)
  | .arr elems => decide (elems.length < 4294967296) && serializableList elems
  | .obj fields => decide (fields.length < 4294967296) && serializableFields fields

def serializableList : List JsonValue → Bool
  | [] => true
  | v :: vs => v.serializable && serializableList vs

def serializableFields : List (String × JsonValue) → Bool
  | [] => true
  | kv :: kvs => decide (kv.1.length < 4294967296) && kv.2.serializable && serializableFields kvs

end

/-- `tower_sessions_core::session::Record`: the logical session record.
`Id` is an `i128` used only for equality and string rendering, modelled as
`Int`; the `HashMap<String, serde_json::Value>` data map is modelled as an
association list (insertion order is irrelevant to every claim: records flow
through the store unchanged). -/
structure Record where
  id : Int
  data : List (String × JsonValue)
  expiry_date : Instant

/-- A record is serializable when every data value (and key) is inside
MessagePack's domain (the id and the expiry instant always are). -/
def Record.serializable (r : Record) : Bool :=
  decide (r.data.length < 4294967296) && serializableFields r.data

/-- The MessagePack byte string stored in the `data` column (`Vec<u8>` in the
source).  MessagePack is self-describing, so a byte string either is the
well-formed `rmp_serde` encoding of exactly one record, or is malformed
(truncated, unknown tag, or otherwise unparseable); the two constructors
model those two classes of byte strings. -/
inductive Blob where
  | encoded (r : Record) : Blob
  | malformed (description : String) : Blob

/-- `rmp_serde::to_vec`: succeeds with the (injective) encoding of the record
when it is inside MessagePack's domain, fails otherwise. -/
def rmpToVec (r : Record) : Except String Blob :=
  if r.serializable then .ok (.encoded r) else .error "msgpack encode: invalid length"

/-- `rmp_serde::from_slice`: recovers the record from a well-formed encoding,
fails on a malformed byte string. -/
def rmpFromSlice : Blob → Except String Record
  | .encoded r => .ok r
  | .malformed description => .error description

/-- `tower_sessions_core::session_store::Error`. -/
inductive Error where
  | encode (msg : String) : Error
  | decode (msg : String) : Error
  | backend (msg : String) : Error

/-- The database row type (`struct SessionRecord` in lib.rs): the encoded
blob and the expiry as an integer of unix seconds. -/
structure SessionRecord where
  data : Blob
  expiry_date : Int

/-- `SessionRecord::from_session` (lib.rs lines 21-26): encodes the session
with `rmp_serde::to_vec`, wrapping a serialization failure as
`Error::Decode` (as the source does), and copies the expiry as
`expiry_date.unix_timestamp()`. -/
def SessionRecord.from_session (session : Record) : Except Error SessionRecord :=
  match rmpToVec session with
  | .error e => .error (.decode e)
  | .ok bytes => .ok { data := bytes, expiry_date := toUnixSeconds session.expiry_date }

/-- `SessionRecord::to_session` (lib.rs lines 28-33): decodes the blob with
`rmp_serde::from_slice`, wrapping a parse failure as `Error::Decode`. -/
def SessionRecord.to_session (sr : SessionRecord) : Except Error Record :=
  match rmpFromSlice sr.data with
  | .error e => .error (.decode e)
  | .ok session => .ok session

/-- The session table: one row per session id.  The backend key is
`session.id.to_string()`; `Id`'s string rendering is injective, so keys are
in bijection with ids and rows are keyed by the id directly. -/
abbrev Store := List (Int × SessionRecord)

/-- Fetch-by-key (SurrealDB `select` of one record): the row at `id`, if any. -/
def Store.get (s : Store) (id : Int) : Option SessionRecord :=
  (s.find? (fun row => row.1 == id)).map (fun row => row.2)

/-- Upsert-by-key (SurrealDB `upsert ... content ...`): insert-or-replace the
row at `id`. -/
def Store.upsert (s : Store) (id : Int) (sr : SessionRecord) : Store :=
  (id, sr) :: s.filter (fun row => row.1 != id)

/-- Well-formedness of a table: no two rows share a key (SurrealDB enforces
this; every modelled operation preserves it). -/
def Store.wf (s : Store) : Prop := (s.map Prod.fst).Nodup

/-- `SessionStore::save` (lib.rs lines 87-97): encode the record with
`SessionRecord::from_session` — any failure is returned before the backend is
touched — then upsert the row at the record's id.  (The source's
`.ok_or(Error::Backend("Session record not saved"))` guards against the
backend returning no row from the upsert, which the modelled backend never
does.) -/
def save (s : Store) (session : Record) : Except Error Store :=
  match SessionRecord.from_session session with
  | .error e => .error e
  | .ok sr => .ok (s.upsert session.id sr)

/-- Rust's `Option::transpose` on the result of `record.map(to_session)`. -/
def transposeExcept : Option (Except Error Record) → Except Error (Option Record)
  | none => .ok none
  | some (.ok r) => .ok (some r)
  | some (.error e) => .error e

/-- `SessionStore::load` (lib.rs lines 99-113): the query
`select expiry_date, data from type::record($table, $id)
 where expiry_date > time::unix(time::now())`
returns the row at `session_id` when one exists and its stored expiry integer
is strictly greater than the current unix second, and no row otherwise; the
result is then decoded via `record.map(|r| r.to_session()).transpose()`. -/
def load (s : Store) (now : Instant) (session_id : Int) : Except Error (Option Record) :=
  let record : Option SessionRecord :=
    match s.get session_id with
    | some row => if row.expiry_date > toUnixSeconds now then some row else none
    | none => none
  transposeExcept (record.map SessionRecord.to_session)

/-- `SessionStore::delete` (lib.rs lines 115-122): delete-by-key; removing an
absent id succeeds. -/
def delete (s : Store) (session_id : Int) : Except Error Store :=
  .ok (s.filter (fun row => row.1 != session_id))

/-- `ExpiredDeletion::delete_expired` (lib.rs lines 56-69): the single query
`delete type::table($table) where expiry_date <= time::unix(time::now())`
removes, in one predicate-filtered operation, every row whose stored expiry
integer is at most the current unix second. -/
def delete_expired (s : Store) (now : Instant) : Except Error Store :=
  .ok (s.filter (fun row => !(row.2.expiry_date ≤ toUnixSeconds now)))

/-- `SessionStore::create` (lib.rs lines 74-85): while a plain select (no
expiry filter) finds an existing row at the candidate id, replace the id with
a freshly generated one (`Id::default()` draws a random `i128`; the stream of
draws is modelled by the list `gens`) and re-probe; once the probe finds no
row, `save`.  `none` models the loop still running when the modelled stream
of draws is exhausted.  On success the result carries the new table state and
the record with its finally assigned id (the source mutates `session.id` in
place). -/
def create (s : Store) (session : Record) (gens : List Int) :
    Option (Except Error (Store × Record)) :=
  if (s.get session.id).isSome then
    match gens with
    | [] => none
    | g :: gs => create s { session with id := g } gs
  else
    match save s session with
    | .ok s2 => some (.ok (s2, session))
    | .error e => some (.error e)

/-! ### Helper lemmas about the table -/

theorem Store.get_upsert_self (s : Store) (i : Int) (e : SessionRecord) :
    Store.get (s.upsert i e) i = some e := by
  simp [Store.get, Store.upsert]

theorem Store.find?_filter_ne (s : Store) (i j : Int) (h : j ≠ i) :
    (s.filter (fun row => row.1 != i)).find? (fun row => row.1 == j)
      = s.find? (fun row => row.1 == j) := by
  induction s with
  | nil => rfl
  | cons hd tl ih =>
    by_cases hk : hd.1 = i
    · have h1 : (hd.1 != i) = false := by simp [hk]
      have h2 : (hd.1 == j) = false := by
        rw [hk]
        exact beq_eq_false_iff_ne.mpr (Ne.symm h)
      rw [List.filter_cons, h1]
      rw [List.find?_cons, h2]
      simpa using ih
    · have h1 : (hd.1 != i) = true := by simp [hk]
      rw [List.filter_cons, h1]
      simp only [if_true]
      rw [List.find?_cons, List.find?_cons]
      cases hj : (hd.1 == j) with
      | true => rfl
      | false => simpa using ih

theorem Store.get_upsert_ne (s : Store) (i j : Int) (e : SessionRecord) (h : j ≠ i) :
    Store.get (s.upsert i e) j = Store.get s j := by
  unfold Store.get Store.upsert
  rw [List.find?_cons]
  have hij : ((i, e).1 == j) = false := by simp [Ne.symm h]
  simp only [hij]
  rw [Store.find?_filter_ne s i j h]

theorem Store.get_filterKey_self (s : Store) (i : Int) :
    Store.get (s.filter (fun row => row.1 != i)) i = none := by
  induction s with
  | nil => rfl
  | cons hd tl ih =>
    by_cases hk : hd.1 = i
    · have h1 : (hd.1 != i) = false := by simp [hk]
      rw [List.filter_cons, h1]
      simpa using ih
    · have h1 : (hd.1 != i) = true := by simp [hk]
      have h2 : (hd.1 == i) = false := beq_eq_false_iff_ne.mpr hk
      rw [List.filter_cons, h1]
      simp only [if_true]
      unfold Store.get at ih ⊢
      rw [List.find?_cons, h2]
      exact ih

theorem Store.get_filter_none (s : Store) (p : Int × SessionRecord → Bool) (i : Int)
    (h : Store.get s i = none) : Store.get (s.filter p) i = none := by
  induction s with
  | nil => rfl
  | cons hd tl ih =>
    unfold Store.get at h ⊢
    rw [List.find?_cons] at h
    by_cases hk : (hd.1 == i) = true
    · simp [hk] at h
    · have hk' : (hd.1 == i) = false := by simpa using hk
      rw [hk'] at h
      by_cases hp : p hd = true
      · rw [List.filter_cons_of_pos hp, List.find?_cons, hk']
        exact ih h
      · rw [List.filter_cons_of_neg (by simpa using hp)]
        exact ih h

theorem Store.get_eq_none_of_not_mem (s : Store) (i : Int)
    (h : i ∉ s.map Prod.fst) : Store.get s i = none := by
  induction s with
  | nil => rfl
  | cons hd tl ih =>
    simp only [List.map_cons, List.mem_cons] at h
    push_neg at h
    unfold Store.get at ih ⊢
    rw [List.find?_cons]
    have h2 : (hd.1 == i) = false := beq_eq_false_iff_ne.mpr (Ne.symm h.1)
    rw [h2]
    exact ih h.2

theorem serializable_toVec (r : Record) (h : r.serializable = true) :
    rmpToVec r = .ok (.encoded r) := by
  simp [rmpToVec, h]

theorem from_session_of_serializable (r : Record) (h : r.serializable = true) :
    SessionRecord.from_session r
      = .ok { data := .encoded r, expiry_date := toUnixSeconds r.expiry_date } := by
  simp [SessionRecord.from_session, serializable_toVec r h]

theorem to_session_encoded (r : Record) :
    SessionRecord.to_session { data := .encoded r, expiry_date := toUnixSeconds r.expiry_date }
      = .ok r := rfl

theorem save_of_serializable (s : Store) (r : Record) (h : r.serializable = true) :
    save s r = .ok (s.upsert r.id
      { data := .encoded r, expiry_date := toUnixSeconds r.expiry_date }) := by
  simp [save, from_session_of_serializable r h]

theorem toUnixSeconds_mono {a b : Instant} (h : a ≤ b) :
    toUnixSeconds a ≤ toUnixSeconds b := by
  unfold toUnixSeconds
  exact Int.ediv_le_ediv (by norm_num) h

theorem Store.get_filter_pred (s : Store) (p : SessionRecord → Bool) (i : Int)
    (hwf : Store.wf s) :
    Store.get (s.filter (fun row => p row.2)) i =
      match Store.get s i with
      | some e => if p e then some e else none
      | none => none := by
  induction s with
  | nil => rfl
  | cons hd tl ih =>
    have hwf' : (hd.1 :: tl.map Prod.fst).Nodup := by simpa [Store.wf] using hwf
    obtain ⟨hnotmem, hnd⟩ := List.nodup_cons.mp hwf'
    have ihtl := ih (by simpa [Store.wf] using hnd)
    by_cases hk : hd.1 = i
    · have h2 : (hd.1 == i) = true := by simp [hk]
      have hget : Store.get (hd :: tl) i = some hd.2 := by
        unfold Store.get
        rw [List.find?_cons, h2]
        rfl
      rw [hget]
      by_cases hp : p hd.2 = true
      · rw [show List.filter (fun row => p row.2) (hd :: tl) = hd :: List.filter (fun row => p row.2) tl from by simp [List.filter_cons, hp]]
        have hL : Store.get (hd :: tl.filter (fun row => p row.2)) i = some hd.2 := by
          unfold Store.get
          rw [List.find?_cons, h2]
          rfl
        rw [hL]
        simp [hp]
      · rw [show List.filter (fun row => p row.2) (hd :: tl) = List.filter (fun row => p row.2) tl from by simp [List.filter_cons, hp]]
        have htl : Store.get tl i = none := by
          apply Store.get_eq_none_of_not_mem
          rw [← hk]
          exact hnotmem
        rw [Store.get_filter_none tl _ i htl]
        simp [hp]
    · have h2 : (hd.1 == i) = false := beq_eq_false_iff_ne.mpr hk
      have hget : Store.get (hd :: tl) i = Store.get tl i := by
        unfold Store.get
        rw [List.find?_cons, h2]
      rw [hget]
      by_cases hp : p hd.2 = true
      · rw [show List.filter (fun row => p row.2) (hd :: tl) = hd :: List.filter (fun row => p row.2) tl from by simp [List.filter_cons, hp]]
        have hL : Store.get (hd :: tl.filter (fun row => p row.2)) i
            = Store.get (tl.filter (fun row => p row.2)) i := by
          unfold Store.get
          rw [List.find?_cons, h2]
        rw [hL]
        exact ihtl
      · rw [show List.filter (fun row => p row.2) (hd :: tl) = List.filter (fun row => p row.2) tl from by simp [List.filter_cons, hp]]
        exact ihtl

theorem filterKey_idem (s : Store) (i : Int) :
    (s.filter (fun row => row.1 != i)).filter (fun row => row.1 != i)
      = s.filter (fun row => row.1 != i) := by
  induction s with
  | nil => rfl
  | cons hd tl ih =>
    by_cases hk : hd.1 = i
    · have h1 : (hd.1 != i) = false := by simp [hk]
      rw [List.filter_cons, h1]
      simp only [Bool.false_eq_true, if_false]
      exact ih
    · have h1 : (hd.1 != i) = true := by simp [hk]
      rw [List.filter_cons, h1]
      simp only [if_true]
      rw [List.filter_cons, h1]
      simp only [if_true]
      rw [ih]

theorem from_session_ok_inv (r : Record) (e : SessionRecord)
    (h : SessionRecord.from_session r = .ok e) :
    r.serializable = true
    ∧ e = { data := .encoded r, expiry_date := toUnixSeconds r.expiry_date } := by
  unfold SessionRecord.from_session rmpToVec at h
  by_cases hs : r.serializable = true
  · rw [if_pos hs] at h
    refine ⟨hs, ?_⟩
    injection h with h'
    exact h'.symm
  · rw [if_neg hs] at h
    cases h

theorem save_ok_inv (s s' : Store) (rec : Record) (h : save s rec = .ok s') :
    ∃ e, SessionRecord.from_session rec = .ok e ∧ s' = s.upsert rec.id e := by
  unfold save at h
  cases he : SessionRecord.from_session rec with
  | error err => rw [he] at h; cases h
  | ok e =>
    rw [he] at h
    injection h with h'
    exact ⟨e, rfl, h'.symm⟩

/-! ### Claim theorems -/

/-- C2: `load` returns none when no entry is stored at the id; when an entry
is stored it returns none if the stored expiry integer is not later than the
current time, and otherwise returns the record decoded from the stored
blob. -/
theorem load_characterization (s : Store) (now : Instant) (i : Int) :
    (Store.get s i = none → load s now i = .ok none)
    ∧ (∀ e, Store.get s i = some e → e.expiry_date ≤ toUnixSeconds now →
        load s now i = .ok none)
    ∧ (∀ e r, Store.get s i = some e → toUnixSeconds now < e.expiry_date →
        e.to_session = .ok r → load s now i = .ok (some r)) := by
  refine ⟨fun h => ?_, fun e h hexp => ?_, fun e r h hexp hdec => ?_⟩
  · simp [load, h, transposeExcept]
  · simp [load, h, transposeExcept, not_lt.mpr hexp]
  · simp [load, h, hexp, transposeExcept, hdec]

/-- C3: `delete_expired` removes exactly the rows whose stored expiry integer
is at most the current unix second (inclusive boundary: rows at the sweep
second and earlier go, strictly later rows stay), as the single
predicate-filtered query of `delete_expired`. -/
theorem delete_expired_characterization (s s' : Store) (now : Instant)
    (hwf : Store.wf s) (h : delete_expired s now = .ok s') :
    (∀ row, row ∈ s' ↔ row ∈ s ∧ toUnixSeconds now < row.2.expiry_date)
    ∧ (∀ i, Store.get s' i =
        match Store.get s i with
        | some e => if e.expiry_date ≤ toUnixSeconds now then none else some e
        | none => none) := by
  have hs' : s' = s.filter (fun row => !(row.2.expiry_date ≤ toUnixSeconds now)) := by
    unfold delete_expired at h
    injection h with h'
    exact h'.symm
  subst hs'
  constructor
  · intro row
    simp [List.mem_filter, not_le]
  · intro i
    have hchar := Store.get_filter_pred s
      (fun e => !(e.expiry_date ≤ toUnixSeconds now)) i hwf
    rw [hchar]
    cases hres : Store.get s i with
    | none => rfl
    | some e =>
      by_cases hle : e.expiry_date ≤ toUnixSeconds now
      · simp [hle]
      · simp [hle]

/-- C5: an entry produced by encoding a record decodes back to that record,
and its integer expiry column equals the unix timestamp of the decoded
record's expiry instant: the two are written together and never diverge. -/
theorem stored_expiry_matches_decoded_blob (r : Record) (e : SessionRecord)
    (h : SessionRecord.from_session r = .ok e) :
    e.to_session = .ok r ∧ e.expiry_date = toUnixSeconds r.expiry_date := by
  obtain ⟨hser, he⟩ := from_session_ok_inv r e h
  subst he
  exact ⟨rfl, rfl⟩

/-- C8: the read path performs no deletion or write: a record saved with an
expiry in the past loads as none, yet its row is still present and unchanged
in the table afterwards, and only the `delete_expired` sweep removes it. -/
theorem load_leaves_expired_entry_in_store (s s' : Store) (rec : Record)
    (e : SessionRecord) (now : Instant)
    (hpast : rec.expiry_date < now)
    (henc : SessionRecord.from_session rec = .ok e)
    (hsave : save s rec = .ok s') :
    load s' now rec.id = .ok none
    ∧ Store.get s' rec.id = some e
    ∧ (∀ s2, delete_expired s' now = .ok s2 → Store.get s2 rec.id = none) := by
  obtain ⟨e2, henc2, hs'⟩ := save_ok_inv s s' rec hsave
  rw [henc] at henc2
  injection henc2 with he2
  subst he2
  subst hs'
  obtain ⟨hser, heq⟩ := from_session_ok_inv rec e henc
  have hexp : e.expiry_date ≤ toUnixSeconds now := by
    rw [heq]
    exact toUnixSeconds_mono (le_of_lt hpast)
  refine ⟨?_, Store.get_upsert_self s rec.id e, ?_⟩
  · simp [load, Store.get_upsert_self, transposeExcept, not_lt.mpr hexp]
  · intro s2 h2
    have hs2 : s2 = (Store.upsert s rec.id e).filter
        (fun row => !(row.2.expiry_date ≤ toUnixSeconds now)) := by
      unfold delete_expired at h2
      injection h2 with h2'
      exact h2'.symm
    subst hs2
    unfold Store.upsert
    rw [show List.filter (fun row => !(row.2.expiry_date ≤ toUnixSeconds now))
          ((rec.id, e) :: s.filter (fun row => row.1 != rec.id))
        = List.filter (fun row => !(row.2.expiry_date ≤ toUnixSeconds now))
            (s.filter (fun row => row.1 != rec.id)) from by
      simp [List.filter_cons, hexp]]
    exact Store.get_filter_none _ _ _ (Store.get_filterKey_self s rec.id)

/-- C9: when the stored blob under an unexpired entry is malformed, `load`
fails with the decode error kind instead of returning none, a default, or a
stale record. -/
theorem load_malformed_blob_decode_error (s : Store) (i : Int) (now : Instant)
    (e : SessionRecord) (msg : String)
    (hget : Store.get s i = some e)
    (hunexpired : toUnixSeconds now < e.expiry_date)
    (hbad : rmpFromSlice e.data = .error msg) :
    load s now i = .error (.decode msg) := by
  simp [load, hget, hunexpired, SessionRecord.to_session, hbad, transposeExcept]

theorem load_after_save_ok (s s' : Store) (rec : Record) (t : Instant)
    (hfuture : toUnixSeconds t < toUnixSeconds rec.expiry_date)
    (hsave : save s rec = .ok s') :
    load s' t rec.id = .ok (some rec) := by
  obtain ⟨e, henc, hs'⟩ := save_ok_inv s s' rec hsave
  obtain ⟨-, heq⟩ := from_session_ok_inv rec e henc
  subst hs'
  subst heq
  simp [load, Store.get_upsert_self, hfuture, transposeExcept,
    SessionRecord.to_session, rmpFromSlice]

/-- C1 (amended): for every record with serializable data values whose expiry
falls in a strictly later unix second than the load time, `save` then `load`
on the record's id returns the record itself — identical id, data map, and
expiry instant.  (As literally stated — any expiry strictly in the future —
the claim fails: see the sub-second counterexample.) -/
theorem save_then_load_returns_record (s s' : Store) (rec : Record) (t : Instant)
    (_hser : rec.serializable = true)
    (hfuture : toUnixSeconds t < toUnixSeconds rec.expiry_date)
    (hsave : save s rec = .ok s') :
    load s' t rec.id = .ok (some rec) :=
  load_after_save_ok s s' rec t hfuture hsave

/-- C1 as stated is false: this record's data is serializable and its expiry
instant (unix time 1700000000.5 s) is strictly later than the current instant
(1700000000.4 s), yet `load` immediately after `save` returns none rather
than the record — the stored expiry is compared at whole-second
granularity. -/
theorem save_then_load_subsecond_counterexample :
    ∃ s' : Store,
      (Record.mk 1 [("key", JsonValue.str "value")] 1700000000500000000).serializable = true
      ∧ (1700000000400000000 : Instant)
          < (Record.mk 1 [("key", JsonValue.str "value")] 1700000000500000000).expiry_date
      ∧ save [] (Record.mk 1 [("key", JsonValue.str "value")] 1700000000500000000) = .ok s'
      ∧ load s' 1700000000400000000
          (Record.mk 1 [("key", JsonValue.str "value")] 1700000000500000000).id = .ok none := by
  refine ⟨[(1, { data := .encoded (Record.mk 1 [("key", JsonValue.str "value")] 1700000000500000000),
                 expiry_date := 1700000000 })], by decide, by decide, ?_, ?_⟩
  · rfl
  · rfl

/-- C10: expiry is evaluated at whole-second granularity: encoding keeps only
the expiry's unix timestamp in seconds, so this record — whose expiry is
0.8 s in the future, inside the current unix second — is stored with expiry
second 1800000000, `load` immediately after `save` returns none, and
`delete_expired` removes the entry, although the record is not yet expired at
full precision. -/
theorem subsecond_expiry_truncation :
    ∃ s' : Store,
      (1800000000100000000 : Instant)
          < (Record.mk 7 [("k", JsonValue.int 5)] 1800000000900000000).expiry_date
      ∧ SessionRecord.from_session (Record.mk 7 [("k", JsonValue.int 5)] 1800000000900000000)
          = .ok { data := .encoded (Record.mk 7 [("k", JsonValue.int 5)] 1800000000900000000),
                  expiry_date := 1800000000 }
      ∧ save [] (Record.mk 7 [("k", JsonValue.int 5)] 1800000000900000000) = .ok s'
      ∧ load s' 1800000000100000000 7 = .ok none
      ∧ delete_expired s' 1800000000100000000 = .ok [] := by
  refine ⟨[(7, { data := .encoded (Record.mk 7 [("k", JsonValue.int 5)] 1800000000900000000),
                 expiry_date := 1800000000 })], by decide, rfl, rfl, rfl, rfl⟩

/-- C7: `save` is an insert-or-replace: after it succeeds the row at the
record's id is exactly the freshly encoded entry, whatever was stored there
before; saving the same record twice yields the same stored state as saving
it once; and after two saves with different data to the same id, a load
returns exactly the second record and nothing of the first. -/
theorem save_upsert_semantics :
    (∀ (s s' : Store) (rec : Record) (e : SessionRecord),
        save s rec = .ok s' → SessionRecord.from_session rec = .ok e →
        Store.get s' rec.id = some e)
    ∧ (∀ (s s' : Store) (rec : Record),
        save s rec = .ok s' → save s' rec = .ok s')
    ∧ (∀ (s s1 s2 : Store) (r1 r2 : Record) (now : Instant),
        r1.id = r2.id → save s r1 = .ok s1 → save s1 r2 = .ok s2 →
        toUnixSeconds now < toUnixSeconds r2.expiry_date →
        load s2 now r2.id = .ok (some r2)) := by
  refine ⟨?_, ?_, ?_⟩
  · intro s s' rec e hsave henc
    obtain ⟨e2, henc2, hs'⟩ := save_ok_inv s s' rec hsave
    rw [henc] at henc2
    injection henc2 with he
    subst he
    subst hs'
    exact Store.get_upsert_self s rec.id e
  · intro s s' rec hsave
    obtain ⟨e, henc, hs'⟩ := save_ok_inv s s' rec hsave
    subst hs'
    unfold save
    rw [henc]
    unfold Store.upsert
    rw [show List.filter (fun row => row.1 != rec.id)
          ((rec.id, e) :: s.filter (fun row => row.1 != rec.id))
        = (s.filter (fun row => row.1 != rec.id)).filter (fun row => row.1 != rec.id) from by
      simp [List.filter_cons]]
    rw [filterKey_idem]
  · intro s s1 s2 r1 r2 now hid hsave1 hsave2 hfresh
    exact load_after_save_ok s1 s2 r2 now hfresh hsave2

theorem replicate_string_length :
    (String.mk (List.replicate 4294967296 'a')).length = 4294967296 := by
  show (List.replicate 4294967296 'a').length = 4294967296
  exact List.length_replicate _ _

theorem big_string_value_not_serializable : JsonValue.serializable
    (.str (String.mk (List.replicate 4294967296 'a'))) = false := by
  have h1 : JsonValue.serializable (.str (String.mk (List.replicate 4294967296 'a')))
      = decide ((String.mk (List.replicate 4294967296 'a')).length < 4294967296) := rfl
  rw [h1, replicate_string_length]
  rfl

theorem big_record_not_serializable : (Record.mk 1
    [("k", JsonValue.str (String.mk (List.replicate 4294967296 'a')))] 0).serializable
    = false := by
  have h2 : (Record.mk 1
      [("k", JsonValue.str (String.mk (List.replicate 4294967296 'a')))] 0).serializable
      = (decide ((1:Nat) < 4294967296) && ((decide (("k":String).length < 4294967296)
          && JsonValue.serializable (.str (String.mk (List.replicate 4294967296 'a'))))
          && true)) := rfl
  rw [h2, big_string_value_not_serializable]
  rfl

theorem save_nonserializable (s : Store) (r : Record) (h : r.serializable = false) :
    save s r = .error (.decode "msgpack encode: invalid length") := by
  unfold save SessionRecord.from_session rmpToVec
  rw [h]
  rfl

/-- C4 fails on the code: a serialization failure is indeed surfaced before
any backend call reached the table and only for non-serializable data
values, but its error kind is `Error.decode`, not `Error.encode` —
`SessionRecord::from_session` wraps the `rmp_serde` encode failure in
`Error::Decode` (lib.rs line 23).  At a record whose data holds a string of
`2^32` characters (outside MessagePack's domain), `save` on the empty table
returns the decode error kind, producing no table state. -/
theorem save_nonserializable_decode_error :
    save [] (Record.mk 1 [("k", JsonValue.str (String.mk (List.replicate 4294967296 'a')))] 0)
      = .error (.decode "msgpack encode: invalid length") :=
  save_nonserializable [] _ big_record_not_serializable

theorem create_free (s : Store) (session : Record) (gens : List Int)
    (h : Store.get s session.id = none) :
    create s session gens =
      match save s session with
      | .ok s2 => some (.ok (s2, session))
      | .error e => some (.error e) := by
  unfold create
  rw [h]
  rfl

theorem create_occupied (s : Store) (session : Record) (g : Int) (gs : List Int)
    (e0 : SessionRecord) (h : Store.get s session.id = some e0) :
    create s session (g :: gs) = create s { session with id := g } gs := by
  conv_lhs => unfold create
  rw [h]
  rfl

theorem create_stuck (s : Store) (session : Record) (e0 : SessionRecord)
    (h : Store.get s session.id = some e0) :
    create s session [] = none := by
  unfold create
  rw [h]
  rfl

theorem create_ok_inv (s : Store) (gens : List Int) (session : Record)
    (s' : Store) (rec' : Record)
    (h : create s session gens = some (.ok (s', rec'))) :
    rec'.data = session.data ∧ rec'.expiry_date = session.expiry_date
    ∧ Store.get s rec'.id = none
    ∧ ∃ e, SessionRecord.from_session rec' = .ok e ∧ s' = s.upsert rec'.id e := by
  induction gens generalizing session with
  | nil =>
    cases hg : Store.get s session.id with
    | some e0 =>
      rw [create_stuck s session e0 hg] at h
      cases h
    | none =>
      rw [create_free s session [] hg] at h
      cases hs : save s session with
      | error err =>
        rw [hs] at h
        simp at h
      | ok s2 =>
        rw [hs] at h
        simp only [Option.some.injEq, Except.ok.injEq, Prod.mk.injEq] at h
        obtain ⟨hs2, hrec⟩ := h
        subst hrec
        rw [← hs2]
        obtain ⟨e, henc, hup⟩ := save_ok_inv s s2 session hs
        exact ⟨rfl, rfl, hg, e, henc, hup⟩
  | cons g gs ih =>
    cases hg : Store.get s session.id with
    | some e0 =>
      rw [create_occupied s session g gs e0 hg] at h
      exact ih { session with id := g } h
    | none =>
      rw [create_free s session (g :: gs) hg] at h
      cases hs : save s session with
      | error err =>
        rw [hs] at h
        simp at h
      | ok s2 =>
        rw [hs] at h
        simp only [Option.some.injEq, Except.ok.injEq, Prod.mk.injEq] at h
        obtain ⟨hs2, hrec⟩ := h
        subst hrec
        rw [← hs2]
        obtain ⟨e, henc, hup⟩ := save_ok_inv s s2 session hs
        exact ⟨rfl, rfl, hg, e, henc, hup⟩

theorem create_progress (s : Store) (gens : List Int) :
    ∀ session : Record, session.serializable = true →
    (Store.get s session.id = none ∨ ∃ g ∈ gens, Store.get s g = none) →
    ∃ s' rec', create s session gens = some (.ok (s', rec')) := by
  induction gens with
  | nil =>
    intro session hser hfree
    have hnone : Store.get s session.id = none := by
      rcases hfree with hnone | ⟨g, hg, -⟩
      · exact hnone
      · cases hg
    exact ⟨_, session, by
      rw [create_free s session [] hnone, save_of_serializable s session hser]⟩
  | cons g gs ih =>
    intro session hser hfree
    cases hc : Store.get s session.id with
    | none =>
      exact ⟨_, session, by
        rw [create_free s session (g :: gs) hc, save_of_serializable s session hser]⟩
    | some e0 =>
      rw [create_occupied s session g gs e0 hc]
      apply ih
      · exact hser
      · by_cases hcg : Store.get s g = none
        · exact Or.inl hcg
        · right
          rcases hfree with hfc | ⟨g2, hg2, hfree2⟩
          · rw [hc] at hfc
            cases hfc
          · rcases List.mem_cons.mp hg2 with rfl | hmem
            · exact absurd hfree2 hcg
            · exact ⟨g2, hmem, hfree2⟩

/-- C6: when `create` returns successfully although an entry already occupied
the candidate id, the persisted id differs from the candidate id, the
pre-existing row at the candidate id is unmodified, the record's data and
expiry are carried over unchanged, and the record is saved at an id that was
free; moreover `create` does return successfully (after probe-and-regenerate)
whenever the candidate id or one of the freshly generated ids is free. -/
theorem create_collision_resolution :
    (∀ (s : Store) (session : Record) (gens : List Int) (e0 : SessionRecord)
        (s' : Store) (rec' : Record),
        Store.get s session.id = some e0 →
        create s session gens = some (.ok (s', rec')) →
        rec'.id ≠ session.id ∧ Store.get s' session.id = some e0
        ∧ rec'.data = session.data ∧ rec'.expiry_date = session.expiry_date
        ∧ ∃ e, SessionRecord.from_session rec' = .ok e ∧ Store.get s' rec'.id = some e)
    ∧ (∀ (s : Store) (session : Record) (gens : List Int),
        session.serializable = true →
        (Store.get s session.id = none ∨ ∃ g ∈ gens, Store.get s g = none) →
        ∃ s' rec', create s session gens = some (.ok (s', rec'))) := by
  constructor
  · intro s session gens e0 s' rec' hocc hcr
    obtain ⟨hdata, hexp, hfree, e, henc, hs'⟩ := create_ok_inv s gens session s' rec' hcr
    have hne : rec'.id ≠ session.id := by
      intro heq
      rw [heq, hocc] at hfree
      cases hfree
    subst hs'
    refine ⟨hne, ?_, hdata, hexp, e, henc, Store.get_upsert_self s rec'.id e⟩
    rw [Store.get_upsert_ne s rec'.id session.id e (Ne.symm hne)]
    exact hocc
  · intro s session gens hser hfree
    exact create_progress s gens session hser hfree

/-! ### Witnesses: each claim theorem with hypotheses applied at concrete
inputs, all hypotheses discharged by computation -/

theorem save_then_load_returns_record_witness :
    load [(1, { data := .encoded (Record.mk 1 [("key", JsonValue.str "value")] 1700000002000000000), expiry_date := 1700000002 })] 1700000000400000000 1
      = .ok (some (Record.mk 1 [("key", JsonValue.str "value")] 1700000002000000000)) :=
  save_then_load_returns_record []
    [(1, { data := .encoded (Record.mk 1 [("key", JsonValue.str "value")] 1700000002000000000), expiry_date := 1700000002 })]
    (Record.mk 1 [("key", JsonValue.str "value")] 1700000002000000000)
    1700000000400000000 (by decide) (by decide) rfl

theorem load_characterization_witness :
    load [] 0 5 = .ok none
    ∧ load [(2, { data := .encoded (Record.mk 2 [] 1700000000000000000), expiry_date := 1700000000 })] 1700000000400000000 2 = .ok none
    ∧ load [(3, { data := .encoded (Record.mk 3 [] 1700000002000000000), expiry_date := 1700000002 })] 1700000000400000000 3
        = .ok (some (Record.mk 3 [] 1700000002000000000)) :=
  ⟨(load_characterization [] 0 5).1 rfl,
   (load_characterization [(2, { data := .encoded (Record.mk 2 [] 1700000000000000000), expiry_date := 1700000000 })] 1700000000400000000 2).2.1
      { data := .encoded (Record.mk 2 [] 1700000000000000000), expiry_date := 1700000000 }
      rfl (by decide),
   (load_characterization [(3, { data := .encoded (Record.mk 3 [] 1700000002000000000), expiry_date := 1700000002 })] 1700000000400000000 3).2.2
      { data := .encoded (Record.mk 3 [] 1700000002000000000), expiry_date := 1700000002 }
      (Record.mk 3 [] 1700000002000000000) rfl (by decide) rfl⟩

theorem delete_expired_characterization_witness :
    Store.get [(3, { data := .encoded (Record.mk 3 [] 1700000001000000000), expiry_date := 1700000001 })] 1 = none
    ∧ Store.get [(3, { data := .encoded (Record.mk 3 [] 1700000001000000000), expiry_date := 1700000001 })] 2 = none
    ∧ Store.get [(3, { data := .encoded (Record.mk 3 [] 1700000001000000000), expiry_date := 1700000001 })] 3
        = some { data := .encoded (Record.mk 3 [] 1700000001000000000), expiry_date := 1700000001 } := by
  have h := delete_expired_characterization
    [(1, { data := .encoded (Record.mk 1 [] 1699999999000000000), expiry_date := 1699999999 }),
     (2, { data := .encoded (Record.mk 2 [] 1700000000000000000), expiry_date := 1700000000 }),
     (3, { data := .encoded (Record.mk 3 [] 1700000001000000000), expiry_date := 1700000001 })]
    [(3, { data := .encoded (Record.mk 3 [] 1700000001000000000), expiry_date := 1700000001 })]
    1700000000400000000 (by unfold Store.wf; decide) rfl
  exact ⟨(h.2 1).trans rfl, (h.2 2).trans rfl, (h.2 3).trans rfl⟩

theorem stored_expiry_matches_decoded_blob_witness :
    SessionRecord.to_session { data := .encoded (Record.mk 5 [("a", JsonValue.null)] 1700000005000000000), expiry_date := 1700000005 }
      = .ok (Record.mk 5 [("a", JsonValue.null)] 1700000005000000000)
    ∧ (1700000005 : Int)
        = toUnixSeconds (Record.mk 5 [("a", JsonValue.null)] 1700000005000000000).expiry_date :=
  stored_expiry_matches_decoded_blob (Record.mk 5 [("a", JsonValue.null)] 1700000005000000000)
    { data := .encoded (Record.mk 5 [("a", JsonValue.null)] 1700000005000000000), expiry_date := 1700000005 } rfl

theorem create_collision_resolution_witness :
    ((2 : Int) ≠ 1
     ∧ Store.get [(2, { data := .encoded (Record.mk 2 [] 1800000000000000000), expiry_date := 1800000000 }), (1, { data := .encoded (Record.mk 1 [] 1800000000000000000), expiry_date := 1800000000 })] 1
        = some { data := .encoded (Record.mk 1 [] 1800000000000000000), expiry_date := 1800000000 })
    ∧ ∃ s2 rec2,
        create [(1, { data := .encoded (Record.mk 1 [] 1800000000000000000), expiry_date := 1800000000 })]
          (Record.mk 1 [] 1800000000000000000) [2] = some (.ok (s2, rec2)) := by
  have h := create_collision_resolution.1
    [(1, { data := .encoded (Record.mk 1 [] 1800000000000000000), expiry_date := 1800000000 })]
    (Record.mk 1 [] 1800000000000000000) [2]
    { data := .encoded (Record.mk 1 [] 1800000000000000000), expiry_date := 1800000000 }
    [(2, { data := .encoded (Record.mk 2 [] 1800000000000000000), expiry_date := 1800000000 }), (1, { data := .encoded (Record.mk 1 [] 1800000000000000000), expiry_date := 1800000000 })]
    (Record.mk 2 [] 1800000000000000000) rfl rfl
  have h2 := create_collision_resolution.2
    [(1, { data := .encoded (Record.mk 1 [] 1800000000000000000), expiry_date := 1800000000 })]
    (Record.mk 1 [] 1800000000000000000) [2] (by decide)
    (Or.inr ⟨2, by simp, rfl⟩)
  exact ⟨⟨h.1, h.2.1⟩, h2⟩

theorem save_upsert_semantics_witness :
    Store.get [(1, { data := .encoded (Record.mk 1 [("a", JsonValue.int 1)] 1700000002000000000), expiry_date := 1700000002 })] 1
      = some { data := .encoded (Record.mk 1 [("a", JsonValue.int 1)] 1700000002000000000), expiry_date := 1700000002 }
    ∧ save [(1, { data := .encoded (Record.mk 1 [("a", JsonValue.int 1)] 1700000002000000000), expiry_date := 1700000002 })]
        (Record.mk 1 [("a", JsonValue.int 1)] 1700000002000000000)
      = .ok [(1, { data := .encoded (Record.mk 1 [("a", JsonValue.int 1)] 1700000002000000000), expiry_date := 1700000002 })]
    ∧ load [(1, { data := .encoded (Record.mk 1 [("b", JsonValue.int 2)] 1700000003000000000), expiry_date := 1700000003 })] 1700000000400000000 1
      = .ok (some (Record.mk 1 [("b", JsonValue.int 2)] 1700000003000000000)) :=
  ⟨save_upsert_semantics.1 []
      [(1, { data := .encoded (Record.mk 1 [("a", JsonValue.int 1)] 1700000002000000000), expiry_date := 1700000002 })]
      (Record.mk 1 [("a", JsonValue.int 1)] 1700000002000000000)
      { data := .encoded (Record.mk 1 [("a", JsonValue.int 1)] 1700000002000000000), expiry_date := 1700000002 } rfl rfl,
   save_upsert_semantics.2.1 []
      [(1, { data := .encoded (Record.mk 1 [("a", JsonValue.int 1)] 1700000002000000000), expiry_date := 1700000002 })]
      (Record.mk 1 [("a", JsonValue.int 1)] 1700000002000000000) rfl,
   save_upsert_semantics.2.2 []
      [(1, { data := .encoded (Record.mk 1 [("a", JsonValue.int 1)] 1700000002000000000), expiry_date := 1700000002 })]
      [(1, { data := .encoded (Record.mk 1 [("b", JsonValue.int 2)] 1700000003000000000), expiry_date := 1700000003 })]
      (Record.mk 1 [("a", JsonValue.int 1)] 1700000002000000000)
      (Record.mk 1 [("b", JsonValue.int 2)] 1700000003000000000)
      1700000000400000000 rfl rfl rfl (by decide)⟩

theorem load_leaves_expired_entry_in_store_witness :
    load [(4, { data := .encoded (Record.mk 4 [] 1699999999000000000), expiry_date := 1699999999 })] 1700000000400000000 4 = .ok none
    ∧ Store.get [(4, { data := .encoded (Record.mk 4 [] 1699999999000000000), expiry_date := 1699999999 })] 4
        = some { data := .encoded (Record.mk 4 [] 1699999999000000000), expiry_date := 1699999999 }
    ∧ Store.get ([] : Store) 4 = none := by
  have h := load_leaves_expired_entry_in_store []
    [(4, { data := .encoded (Record.mk 4 [] 1699999999000000000), expiry_date := 1699999999 })]
    (Record.mk 4 [] 1699999999000000000)
    { data := .encoded (Record.mk 4 [] 1699999999000000000), expiry_date := 1699999999 }
    1700000000400000000 (by decide) rfl rfl
  exact ⟨h.1, h.2.1, h.2.2 [] rfl⟩

theorem load_malformed_blob_decode_error_witness :
    load [(9, { data := .malformed "truncated payload", expiry_date := 1700000099 })] 1700000000400000000 9
      = .error (.decode "truncated payload") :=
  load_malformed_blob_decode_error
    [(9, { data := .malformed "truncated payload", expiry_date := 1700000099 })]
    9 1700000000400000000
    { data := .malformed "truncated payload", expiry_date := 1700000099 }
    "truncated payload" rfl (by decide) rfl
